import Mathlib

/-!
Shallow embedding of the `rust_wgpu_engine` repository core.

Floating-point (`f32`) scalar arithmetic is idealised over `ℝ`; machine
sizes (`u32`) are embedded as `ℕ`.  The embedding follows the code that the
application (`game_app/src/main.rs`) actually runs: the ECS components and
`player_movement_system` from `engine_ecs`, the `Time` resource from
`engine_time`, the input set from `engine_input`, the renderer from
`crates/engine_internals/engine_renderer/src/renderer.rs` (the variant whose
constructor `new(device, config)` and `render(world, view, device, queue)`
signatures `main.rs` calls), and the frame coordination / resize logic of
`AppState` in `main.rs`.
-/

namespace WgpuEngine

/-- 2D float vector, from `glam::Vec2` as used by `engine_core::math`. -/
structure Vec2 where
  x : ℝ
  y : ℝ

namespace Vec2

def zero : Vec2 := ⟨0, 0⟩

/-- Componentwise addition (`Vec2 + Vec2`, used by `position +=`). -/
def add (v w : Vec2) : Vec2 := ⟨v.x + w.x, v.y + w.y⟩

/-- Scalar multiplication (`Vec2 * f32`). -/
def smul (v : Vec2) (a : ℝ) : Vec2 := ⟨v.x * a, v.y * a⟩

/-- `glam::Vec2::length_squared`: `self.dot(self) = x*x + y*y`. -/
def lengthSquared (v : Vec2) : ℝ := v.x * v.x + v.y * v.y

/-- `glam::Vec2::length`: square root of the squared length. -/
noncomputable def length (v : Vec2) : ℝ := Real.sqrt v.lengthSquared

/-- `glam::Vec2::normalize`: `self * self.length().recip()`. -/
noncomputable def normalize (v : Vec2) : Vec2 := v.smul v.length⁻¹

end Vec2

/-- RGBA colour, from `engine_core::Color`. -/
structure Color where
  r : ℝ
  g : ℝ
  b : ℝ
  a : ℝ

/-- `engine_ecs::components::Transform`. -/
structure Transform where
  position : Vec2
  scale : Vec2
  rotation : ℝ

/-- `engine_input::InputAction`. -/
inductive InputAction where
  | MoveForward
  | MoveBack
  | MoveLeft
  | MoveRight
deriving DecidableEq

/-- `engine_input::InputManager` reduced to its observable interface: the
`is_action_pressed` predicate over the pressed-action set. -/
def Pressed := InputAction → Bool

/-- The direction accumulation of `player_movement_system`
(`engine_ecs/src/systems.rs` lines 17–30): start from `(0,0)` and add one
unit term per pressed action, in source order. -/
def movementDirection (pressed : Pressed) : Vec2 :=
  let d0 : Vec2 := ⟨0, 0⟩
  let d1 := if pressed InputAction.MoveForward then { d0 with y := d0.y + 1 } else d0
  let d2 := if pressed InputAction.MoveBack then { d1 with y := d1.y - 1 } else d1
  let d3 := if pressed InputAction.MoveLeft then { d2 with x := d2.x - 1 } else d2
  let d4 := if pressed InputAction.MoveRight then { d3 with x := d3.x + 1 } else d3
  d4

open Classical in
/-- The per-entity body of `player_movement_system`
(`engine_ecs/src/systems.rs` lines 16–38): if the accumulated direction has
positive squared length, normalize it and displace
`position += direction * speed * delta_seconds`; otherwise leave the
transform alone. -/
noncomputable def playerMovementStep (pressed : Pressed) (speed dt : ℝ)
    (t : Transform) : Transform :=
  if 0 < (movementDirection pressed).lengthSquared then
    { t with
        position := t.position.add ((((movementDirection pressed).normalize).smul speed).smul dt) }
  else
    t

/-- An ECS entity restricted to the component types this core uses:
optional `Transform`, optional `Renderable` colour, the zero-size `Player`
tag, and an optional `MoveSpeed` scalar. -/
structure Entity where
  transform : Option Transform
  renderable : Option Color
  player : Bool
  moveSpeed : Option ℝ

/-- The ECS world as an ordered store of entities (query iteration order is
the list order). -/
def World := List Entity

/-- Action of one `player_movement_system` pass on a single entity: the
query `Query<(&mut Transform, &MoveSpeed), With<Player>>` touches exactly
those entities holding all of `Player`, `MoveSpeed`, `Transform`. -/
noncomputable def moveEntity (pressed : Pressed) (dt : ℝ) (e : Entity) : Entity :=
  match e.player, e.moveSpeed, e.transform with
  | true, some s, some t =>
      { e with transform := some (playerMovementStep pressed s dt t) }
  | _, _, _ => e

/-- One `player_movement_system` pass over the whole world. -/
noncomputable def movementSystem (pressed : Pressed) (dt : ℝ) (w : World) : World :=
  w.map (moveEntity pressed dt)

/-- 4×4 float matrix (`glam::Mat4`), stored in mathematical row/column
convention: entry `i j` is row `i`, column `j` (glam stores columns
`x_axis .. w_axis`; column `j` here is glam's axis `j`). -/
abbrev Mat4 := Matrix (Fin 4) (Fin 4) ℝ

/-- `glam::Mat4::from_translation(Vec3::new(x, y, z))`: identity with the
translation in the fourth column. -/
def fromTranslation (x y z : ℝ) : Mat4 :=
  Matrix.of ![![1, 0, 0, x], ![0, 1, 0, y], ![0, 0, 1, z], ![0, 0, 0, 1]]

/-- `glam::Mat4::from_rotation_z(theta)`: rotation about the z axis;
glam's `x_axis = (cos, sin, 0, 0)` and `y_axis = (-sin, cos, 0, 0)` are the
first two columns. -/
noncomputable def fromRotationZ (theta : ℝ) : Mat4 :=
  Matrix.of ![![Real.cos theta, -Real.sin theta, 0, 0],
              ![Real.sin theta, Real.cos theta, 0, 0],
              ![0, 0, 1, 0], ![0, 0, 0, 1]]

/-- `glam::Mat4::from_scale(Vec3::new(sx, sy, sz))`: diagonal scale. -/
def fromScale (sx sy sz : ℝ) : Mat4 :=
  Matrix.of ![![sx, 0, 0, 0], ![0, sy, 0, 0], ![0, 0, sz, 0], ![0, 0, 0, 1]]

/-- The model matrix built by the active extractor
(`engine_internals/engine_renderer/src/renderer.rs` lines 81–86):
`Mat4::from_translation((pos.x, pos.y, 0)) * Mat4::from_rotation_z(rotation)
 * Mat4::from_scale((scale.x, scale.y, 1))`. -/
noncomputable def modelMatrix (t : Transform) : Mat4 :=
  fromTranslation t.position.x t.position.y 0 *
    fromRotationZ t.rotation * fromScale t.scale.x t.scale.y 1

/-- `InstanceRaw`: one GPU draw-instance record (model matrix + colour). -/
structure DrawInstance where
  model : Mat4
  color : Color

/-- The record built per `(Transform, Renderable)` pair in
`Renderer::render` (`engine_internals/engine_renderer/src/renderer.rs`
lines 80–96). -/
noncomputable def mkDrawInstance (t : Transform) (c : Color) : DrawInstance :=
  { model := modelMatrix t, color := c }

/-- The instance extraction of `Renderer::render` lines 77–97: iterate the
`(&Transform, &Renderable)` query and collect one `InstanceRaw` per
matching entity, in query order, with no cap. -/
noncomputable def extractInstances (w : World) : List DrawInstance :=
  w.filterMap fun e =>
    match e.transform, e.renderable with
    | some t, some c => some (mkDrawInstance t c)
    | _, _ => none

/-- Whether an entity matches the `(&Transform, &Renderable)` query. -/
def hasTransformAndRenderable (e : Entity) : Bool :=
  e.transform.isSome && e.renderable.isSome

/-- `size_of::<InstanceRaw>() * 1024`: the instance buffer is preallocated
for 1024 records (`Renderer::new`, lines 52–57). -/
def instanceBufferCapacity : ℕ := 1024

/-- One recorded indexed instanced draw call:
`draw_indexed(indices, base_vertex, instances)`. -/
structure DrawCall where
  indexStart : ℕ
  indexEnd : ℕ
  baseVertex : ℤ
  instanceStart : ℕ
  instanceEnd : ℕ
deriving DecidableEq

/-- `INDICES.len()`: the quad mesh has 6 indices, two triangles. -/
def numIndices : ℕ := 6

/-- The draw calls recorded into the render pass by `Renderer::render`
lines 119–125: the pipeline and buffers are always bound, but
`draw_indexed(0..num_indices, 0, 0..instance_data.len())` is issued only
when `instance_data` is non-empty. -/
def recordDrawCalls (instances : List DrawInstance) : List DrawCall :=
  if instances.isEmpty then []
  else [⟨0, numIndices, 0, 0, instances.length⟩]

/-- The surface-owning state of `AppState` in `game_app/src/main.rs`:
the recorded window `size`, the surface configuration's dimensions, and a
log of every `surface.configure` call's dimensions (most recent last). -/
structure AppSurface where
  size : ℕ × ℕ
  configSize : ℕ × ℕ
  configureLog : List (ℕ × ℕ)
deriving DecidableEq

/-- `AppState::resize` (`main.rs` lines 76–83, identical logic in
`Renderer::resize` of `crates/engine_renderer`): when both dimensions are
strictly positive, record the new size, update the configuration and
reconfigure the surface; otherwise do nothing. -/
def resize (s : AppSurface) (newSize : ℕ × ℕ) : AppSurface :=
  if 0 < newSize.1 ∧ 0 < newSize.2 then
    { size := newSize, configSize := newSize,
      configureLog := s.configureLog ++ [newSize] }
  else
    s

/-- Outcome of one frame-acquisition attempt
(`surface.get_current_texture()` in `main.rs`). -/
inductive AcquireResult where
  | ok
  | lost
  | outOfMemory
  | otherError
deriving DecidableEq

/-- Observable effects of one pass through the acquisition `match` of the
redraw handler. -/
structure FrameOutcome where
  drewAndPresented : Bool
  exitRequested : Bool
  loggedError : Bool
deriving DecidableEq

/-- The frame-acquisition policy of `App::window_event`
(`game_app/src/main.rs` lines 146–160): `Ok` runs the renderer and
presents; `Lost` performs `state.resize(state.size)` and skips the frame;
`OutOfMemory` asks the event loop to exit; any other error is printed and
the frame is skipped. -/
def handleAcquire (s : AppSurface) (r : AcquireResult) :
    AppSurface × FrameOutcome :=
  match r with
  | .ok => (s, ⟨true, false, false⟩)
  | .lost => (resize s s.size, ⟨false, false, false⟩)
  | .outOfMemory => (s, ⟨false, true, false⟩)
  | .otherError => (s, ⟨false, false, true⟩)

/-- `engine_time::Time`: stored delta (as seconds) and its `f32` cache. -/
structure Time where
  delta : ℝ
  deltaSeconds : ℝ

/-- `Time::advance_by`: replace both the stored delta and the cache. -/
def Time.advanceBy (delta : ℝ) : Time := ⟨delta, delta⟩

/-- `Time::default()`: zero delta. -/
def Time.default : Time := ⟨0, 0⟩

/-- The app-owned state that one redraw tick reads and writes: the `Time`
resource and the entity store. -/
structure AppWorld where
  time : Time
  entities : World

/-- One `RedrawRequested` pass of `App::window_event` (`main.rs` lines
140–144) as it affects the world: insert the current input snapshot, then
run the schedule containing `player_movement_system` with the `Time`
resource as it stands.  No statement in this handler (or anywhere else in
`main.rs`) calls `Time::advance_by`. -/
noncomputable def hostRedrawTick (pressed : Pressed) (w : AppWorld) : AppWorld :=
  { w with entities := movementSystem pressed w.time.deltaSeconds w.entities }

/-- Iterated redraw ticks, one input snapshot per tick. -/
noncomputable def hostRedrawTicks (snapshots : List Pressed) (w : AppWorld) : AppWorld :=
  snapshots.foldl (fun acc p => hostRedrawTick p acc) w

/-- `Engine::update` (`engine_api/src/lib.rs` lines 30–43) as it affects
the world, given the measured wall-clock gap since the previous call:
advance the `Time` resource by that gap, insert the input snapshot, run
the schedule.  `game_app/src/main.rs` never constructs an `Engine` and
never calls this. -/
noncomputable def engineUpdate (wallDelta : ℝ) (pressed : Pressed) (w : AppWorld) :
    AppWorld :=
  let t := Time.advanceBy wallDelta
  { time := t, entities := movementSystem pressed t.deltaSeconds w.entities }

/-- The green player quad spawned by `main` (`main.rs` lines 181–192):
origin position, scale `(0.2, 0.2)`, rotation `0`, speed `1`. -/
def playerQuad : Entity :=
  { transform := some ⟨⟨0, 0⟩, ⟨0.2, 0.2⟩, 0⟩,
    renderable := some ⟨0, 1, 0, 1⟩,
    player := true, moveSpeed := some 1 }

/-- The static blue quad spawned by `main` (`main.rs` lines 193–200):
position `(0.7, 0.7)`, no `Player` tag, no `MoveSpeed`. -/
def staticQuad : Entity :=
  { transform := some ⟨⟨0.7, 0.7⟩, ⟨0.2, 0.2⟩, 0⟩,
    renderable := some ⟨0, 0, 1, 1⟩,
    player := false, moveSpeed := none }

/-- The startup world of `main` (`main.rs` lines 178–200): the `Time`
resource at its default, a green player quad at the origin with speed 1,
and a static blue quad at `(0.7, 0.7)`. -/
def initialAppWorld : AppWorld :=
  { time := Time.default, entities := [playerQuad, staticQuad] }

/-- Iterated per-entity movement passes, one `(input, delta)` pair per
invocation. -/
noncomputable def entityTicks (ticks : List (Pressed × ℝ)) (e : Entity) : Entity :=
  ticks.foldl (fun acc pd => moveEntity pd.1 pd.2 acc) e

/-- Iterated whole-world movement passes. -/
noncomputable def worldTicks (ticks : List (Pressed × ℝ)) (w : World) : World :=
  ticks.foldl (fun acc pd => movementSystem pd.1 pd.2 acc) w

/-- The numeric contribution of one pressed predicate: `1` if pressed,
else `0`. -/
def b2r (b : Bool) : ℝ := if b then 1 else 0

/-- Input snapshot with exactly `MoveForward` held. -/
def onlyForwardInput : Pressed := fun a => decide (a = InputAction.MoveForward)

/-- Input snapshot with exactly `MoveForward` and `MoveBack` held. -/
def forwardBackInput : Pressed :=
  fun a => decide (a = InputAction.MoveForward) || decide (a = InputAction.MoveBack)

/-- A sample transform used to instantiate universally quantified
statements. -/
def sampleTransform : Transform := ⟨⟨0, 0⟩, ⟨1, 1⟩, 0⟩

/-- The transform of the spec's matrix round-trip check: position `(2,3)`,
scale `(1,1)`, rotation `0`. -/
def referenceTransform : Transform := ⟨⟨2, 3⟩, ⟨1, 1⟩, 0⟩

/-- An entity holding both a `Transform` and a `Renderable`. -/
def quadEntity : Entity :=
  { transform := some sampleTransform, renderable := some ⟨1, 1, 1, 1⟩,
    player := false, moveSpeed := none }

/-- A scene with 1025 entities holding both `Transform` and `Renderable`:
one more than the preallocated instance-buffer capacity. -/
def overflowWorld : World := List.replicate 1025 quadEntity

/-- A sample surface state with a positive recorded size. -/
def sampleSurface : AppSurface := ⟨(800, 600), (800, 600), []⟩

section Helpers

lemma extractInstances_length (w : World) :
    (extractInstances w).length = w.countP hasTransformAndRenderable := by
  induction w with
  | nil => rfl
  | cons e rest ih =>
    rcases e with ⟨t, r, pl, ms⟩
    rcases t with _ | t <;> rcases r with _ | c <;>
      simp [extractInstances, List.filterMap_cons, List.countP_cons,
        hasTransformAndRenderable, ← ih]

lemma countP_replicate_of_pos (p : Entity → Bool) (e : Entity) (n : ℕ)
    (h : p e = true) : List.countP p (List.replicate n e) = n := by
  induction n with
  | zero => rfl
  | succ n ih => simp [List.replicate_succ, List.countP_cons, h, ih]

lemma lengthSquared_eq_zero_iff (v : Vec2) :
    v.lengthSquared = 0 ↔ v = Vec2.zero := by
  rcases v with ⟨x, y⟩
  have hx : 0 ≤ x * x := mul_self_nonneg x
  have hy : 0 ≤ y * y := mul_self_nonneg y
  constructor
  · intro h
    simp only [Vec2.lengthSquared] at h
    have hx0 : x * x = 0 := le_antisymm (by linarith) hx
    have hy0 : y * y = 0 := le_antisymm (by linarith) hy
    have hx1 : x = 0 := by nlinarith
    have hy1 : y = 0 := by nlinarith
    simp [Vec2.zero, Vec2.mk.injEq, hx1, hy1]
  · intro h
    simp [Vec2.zero] at h
    simp [Vec2.lengthSquared, h.1, h.2]

lemma lengthSquared_pos_iff (v : Vec2) :
    0 < v.lengthSquared ↔ v ≠ Vec2.zero := by
  have hnn : 0 ≤ v.lengthSquared := by
    rcases v with ⟨x, y⟩
    have hx : 0 ≤ x * x := mul_self_nonneg x
    have hy : 0 ≤ y * y := mul_self_nonneg y
    simpa [Vec2.lengthSquared] using add_nonneg hx hy
  constructor
  · intro h hz
    rw [← lengthSquared_eq_zero_iff] at hz
    exact lt_irrefl _ (hz ▸ h)
  · intro h
    rcases lt_or_eq_of_le hnn with hlt | heq
    · exact hlt
    · exact absurd ((lengthSquared_eq_zero_iff v).mp heq.symm) h

lemma movementDirection_eq (p : Pressed) :
    movementDirection p =
      ⟨b2r (p InputAction.MoveRight) - b2r (p InputAction.MoveLeft),
        b2r (p InputAction.MoveForward) - b2r (p InputAction.MoveBack)⟩ := by
  unfold movementDirection b2r
  cases p InputAction.MoveForward <;> cases p InputAction.MoveBack <;>
    cases p InputAction.MoveLeft <;> cases p InputAction.MoveRight <;>
    simp [Vec2.mk.injEq]

lemma moveEntity_nonplayer (p : Pressed) (dt : ℝ) (e : Entity)
    (h : e.player = false) : moveEntity p dt e = e := by
  unfold moveEntity
  split
  · rename_i heq _ _
    rw [h] at heq
    exact absurd heq (by simp)
  · rfl

lemma entityTicks_nonplayer (ticks : List (Pressed × ℝ)) (e : Entity)
    (h : e.player = false) : entityTicks ticks e = e := by
  induction ticks with
  | nil => rfl
  | cons pd rest ih =>
    unfold entityTicks at *
    rw [List.foldl_cons, moveEntity_nonplayer pd.1 pd.2 e h, ih]

lemma worldTicks_map (ticks : List (Pressed × ℝ)) (w : World) :
    worldTicks ticks w = w.map (entityTicks ticks) := by
  induction ticks generalizing w with
  | nil =>
    have h : entityTicks ([] : List (Pressed × ℝ)) = fun e => e := rfl
    show w = w.map (entityTicks [])
    rw [h, List.map_id']
  | cons pd rest ih =>
    unfold worldTicks entityTicks at *
    rw [List.foldl_cons, ih (movementSystem pd.1 pd.2 w)]
    unfold movementSystem
    rw [List.map_map]
    rfl

lemma hostRedrawTicks_time (snapshots : List Pressed) (w : AppWorld) :
    (hostRedrawTicks snapshots w).time = w.time := by
  induction snapshots generalizing w with
  | nil => rfl
  | cons p rest ih =>
    unfold hostRedrawTicks at *
    rw [List.foldl_cons, ih (hostRedrawTick p w)]
    rfl

end Helpers

section MovementLemmas

lemma playerMovementStep_of_ne (p : Pressed) (s dt : ℝ) (t : Transform)
    (h : movementDirection p ≠ Vec2.zero) :
    (playerMovementStep p s dt t).position =
      t.position.add ((((movementDirection p).normalize).smul s).smul dt) := by
  unfold playerMovementStep
  rw [if_pos ((lengthSquared_pos_iff (movementDirection p)).mpr h)]

lemma playerMovementStep_of_zero (p : Pressed) (s dt : ℝ) (t : Transform)
    (h : movementDirection p = Vec2.zero) :
    playerMovementStep p s dt t = t := by
  have hz : (movementDirection p).lengthSquared = 0 :=
    (lengthSquared_eq_zero_iff _).mpr h
  unfold playerMovementStep
  rw [hz]
  simp

lemma normalize_unit_y : (⟨0, 1⟩ : Vec2).normalize = ⟨0, 1⟩ := by
  unfold Vec2.normalize Vec2.length Vec2.lengthSquared Vec2.smul
  norm_num

end MovementLemmas

/-- C1: the active extractor builds each instance's model matrix as
`Translation(position) * RotationZ(rotation) * Scale(scale)` with the
translation outermost; at position `(2,3)`, scale `(1,1)`, rotation `0`
the matrix's fourth column holds the translation `(2,3,0)` and its
upper-left 3×3 block is the identity. -/
theorem C1_model_matrix_composition :
    (∀ (t : Transform) (c : Color), (mkDrawInstance t c).model =
        fromTranslation t.position.x t.position.y 0 *
          fromRotationZ t.rotation * fromScale t.scale.x t.scale.y 1) ∧
    (modelMatrix referenceTransform 0 3 = 2 ∧
      modelMatrix referenceTransform 1 3 = 3 ∧
      modelMatrix referenceTransform 2 3 = 0) ∧
    (∀ i j : Fin 3, modelMatrix referenceTransform i.castSucc j.castSucc =
        if i = j then 1 else 0) := by
  have href : modelMatrix referenceTransform =
      Matrix.of ![![1, 0, 0, 2], ![0, 1, 0, 3], ![0, 0, 1, 0], ![0, 0, 0, 1]] := by
    ext i j
    fin_cases i <;> fin_cases j <;>
      simp [modelMatrix, referenceTransform, fromTranslation, fromRotationZ,
        fromScale, Matrix.mul_apply, Fin.sum_univ_four, Real.cos_zero,
        Real.sin_zero, Matrix.cons_val_zero, Matrix.cons_val_one,
        Matrix.cons_val_two, Matrix.cons_val_three, Matrix.head_cons,
        Matrix.vecHead, Matrix.vecTail]
  refine ⟨fun t c => rfl, ?_, ?_⟩
  · rw [href]
    refine ⟨?_, ?_, ?_⟩ <;>
      simp [Matrix.cons_val_zero, Matrix.cons_val_one, Matrix.cons_val_two,
        Matrix.cons_val_three, Matrix.head_cons, Matrix.vecHead, Matrix.vecTail]
  · intro i j
    rw [href]
    fin_cases i <;> fin_cases j <;>
      simp [Fin.castSucc, Fin.castAdd, Fin.castLE, Matrix.cons_val_zero,
        Matrix.cons_val_one, Matrix.cons_val_two, Matrix.cons_val_three,
        Matrix.head_cons, Matrix.vecHead, Matrix.vecTail]

/-- C2: one movement pass displaces a player entity's position by
`normalize(d) * speed * delta` where `d` is the axis-wise sum
`(right - left, forward - back)` of the four pressed predicates, and
leaves the position unchanged when `d = 0`; in particular forward-only
input displaces by exactly `(0, s·dt)`, and simultaneous forward+back
input cancels to zero displacement. -/
theorem C2_player_movement :
    (∀ p : Pressed, movementDirection p =
        ⟨b2r (p InputAction.MoveRight) - b2r (p InputAction.MoveLeft),
          b2r (p InputAction.MoveForward) - b2r (p InputAction.MoveBack)⟩) ∧
    (∀ (p : Pressed) (s dt : ℝ) (t : Transform),
        movementDirection p ≠ Vec2.zero →
        (playerMovementStep p s dt t).position =
          t.position.add ((((movementDirection p).normalize).smul s).smul dt)) ∧
    (∀ (p : Pressed) (s dt : ℝ) (t : Transform),
        movementDirection p = Vec2.zero →
        playerMovementStep p s dt t = t) ∧
    (∀ (p : Pressed) (s dt : ℝ) (t : Transform),
        p InputAction.MoveForward = true → p InputAction.MoveBack = false →
        p InputAction.MoveLeft = false → p InputAction.MoveRight = false →
        (playerMovementStep p s dt t).position = t.position.add ⟨0, s * dt⟩) ∧
    (∀ (p : Pressed) (s dt : ℝ) (t : Transform),
        p InputAction.MoveForward = true → p InputAction.MoveBack = true →
        p InputAction.MoveLeft = false → p InputAction.MoveRight = false →
        playerMovementStep p s dt t = t) := by
  refine ⟨movementDirection_eq, playerMovementStep_of_ne,
    playerMovementStep_of_zero, ?_, ?_⟩
  · intro p s dt t hF hB hL hR
    have hd : movementDirection p = ⟨0, 1⟩ := by
      rw [movementDirection_eq]
      simp [b2r, hF, hB, hL, hR]
    have hne : movementDirection p ≠ Vec2.zero := by
      rw [hd]
      simp [Vec2.zero, Vec2.mk.injEq]
    rw [playerMovementStep_of_ne p s dt t hne, hd, normalize_unit_y]
    unfold Vec2.smul Vec2.add
    norm_num
  · intro p s dt t hF hB hL hR
    apply playerMovementStep_of_zero
    rw [movementDirection_eq]
    simp [b2r, hF, hB, hL, hR, Vec2.zero]

/-- C2 witness: concrete instantiation with only `MoveForward` held,
speed `1`, delta `1/2`. -/
theorem C2_player_movement_witness :
    (movementDirection onlyForwardInput ≠ Vec2.zero ∧
      (playerMovementStep onlyForwardInput 1 (1/2) sampleTransform).position =
        sampleTransform.position.add
          ((((movementDirection onlyForwardInput).normalize).smul 1).smul (1/2))) ∧
    (onlyForwardInput InputAction.MoveForward = true ∧
      (playerMovementStep onlyForwardInput 1 (1/2) sampleTransform).position =
        sampleTransform.position.add ⟨0, 1 * (1/2)⟩) ∧
    (forwardBackInput InputAction.MoveForward = true ∧
      forwardBackInput InputAction.MoveBack = true ∧
      playerMovementStep forwardBackInput 1 (1/2) sampleTransform = sampleTransform) := by
  have hne : movementDirection onlyForwardInput ≠ Vec2.zero := by
    rw [movementDirection_eq]
    simp [b2r, onlyForwardInput, Vec2.zero, Vec2.mk.injEq]
  refine ⟨⟨hne, C2_player_movement.2.1 onlyForwardInput 1 (1/2) sampleTransform hne⟩,
    ⟨rfl, C2_player_movement.2.2.2.1 onlyForwardInput 1 (1/2) sampleTransform
      rfl rfl rfl rfl⟩,
    ⟨rfl, rfl, C2_player_movement.2.2.2.2 forwardBackInput 1 (1/2) sampleTransform
      rfl rfl rfl rfl⟩⟩

/-- C3: on frame acquisition failure, `Lost` triggers a resize-to-self
(reconfiguring the surface at the last known size) and skips the
draw/present path; `OutOfMemory` requests event-loop exit; any other
error is logged and the frame skipped with no state change. -/
theorem C3_acquire_failure_policy :
    (∀ s : AppSurface, handleAcquire s AcquireResult.lost =
        (resize s s.size, ⟨false, false, false⟩)) ∧
    (∀ s : AppSurface, 0 < s.size.1 → 0 < s.size.2 →
        (handleAcquire s AcquireResult.lost).1.configSize = s.size ∧
        (handleAcquire s AcquireResult.lost).1.configureLog =
          s.configureLog ++ [s.size]) ∧
    (∀ s : AppSurface, handleAcquire s AcquireResult.outOfMemory =
        (s, ⟨false, true, false⟩)) ∧
    (∀ s : AppSurface, handleAcquire s AcquireResult.otherError =
        (s, ⟨false, false, true⟩)) := by
  refine ⟨fun s => rfl, ?_, fun s => rfl, fun s => rfl⟩
  intro s h1 h2
  constructor <;> simp [handleAcquire, resize, h1, h2]

/-- C3 witness: concrete surface at size `(800, 600)`. -/
theorem C3_acquire_failure_policy_witness :
    0 < sampleSurface.size.1 ∧ 0 < sampleSurface.size.2 ∧
      (handleAcquire sampleSurface AcquireResult.lost).1.configSize =
        sampleSurface.size ∧
      (handleAcquire sampleSurface AcquireResult.lost).1.configureLog =
        sampleSurface.configureLog ++ [sampleSurface.size] :=
  ⟨by decide, by decide,
    (C3_acquire_failure_policy.2.1 sampleSurface (by decide) (by decide)).1,
    (C3_acquire_failure_policy.2.1 sampleSurface (by decide) (by decide)).2⟩

/-- C4: entities lacking the `Player` marker are left completely unchanged
by any number of movement passes, under every input snapshot and delta; the
whole-world pass acts entitywise. -/
theorem C4_nonplayer_unaffected :
    (∀ (ticks : List (Pressed × ℝ)) (w : World),
        worldTicks ticks w = w.map (entityTicks ticks)) ∧
    (∀ (ticks : List (Pressed × ℝ)) (e : Entity), e.player = false →
        entityTicks ticks e = e) :=
  ⟨worldTicks_map, entityTicks_nonplayer⟩

/-- C4 witness: the static blue quad survives two movement passes
untouched. -/
theorem C4_nonplayer_unaffected_witness :
    staticQuad.player = false ∧
      entityTicks [(onlyForwardInput, 1), (forwardBackInput, 2)] staticQuad =
        staticQuad :=
  ⟨rfl, C4_nonplayer_unaffected.2 [(onlyForwardInput, 1), (forwardBackInput, 2)]
    staticQuad rfl⟩

/-- C5: the extracted `DrawInstance` sequence has exactly one record per
entity holding both a `Transform` and a `Renderable`, whatever other
components entities carry. -/
theorem C5_extraction_length (w : World) :
    (extractInstances w).length = w.countP hasTransformAndRenderable :=
  extractInstances_length w

/-- C6 counterexample: a scene of 1025 qualifying entities produces a
sequence of length 1025, refuting the claimed 1024-record cap. -/
theorem C6_capacity_counterexample :
    ¬ (extractInstances overflowWorld).length ≤ instanceBufferCapacity := by
  have h : (extractInstances overflowWorld).length = 1025 := by
    rw [extractInstances_length]
    exact countP_replicate_of_pos hasTransformAndRenderable quadEntity 1025 rfl
  rw [h]
  decide

/-- C6 (amended): the produced sequence is not capped at the preallocated
1024-record buffer capacity; when more than 1024 entities qualify, every
one of them still contributes a record (the overflow is unguarded, nothing
is dropped from the produced sequence). -/
theorem C6_no_silent_drop (w : World)
    (h : instanceBufferCapacity < w.countP hasTransformAndRenderable) :
    (extractInstances w).length = w.countP hasTransformAndRenderable ∧
      instanceBufferCapacity < (extractInstances w).length := by
  refine ⟨extractInstances_length w, ?_⟩
  rw [extractInstances_length]
  exact h

/-- C6 witness: the 1025-entity scene. -/
theorem C6_no_silent_drop_witness :
    instanceBufferCapacity < overflowWorld.countP hasTransformAndRenderable ∧
      (extractInstances overflowWorld).length =
        overflowWorld.countP hasTransformAndRenderable := by
  have hc : overflowWorld.countP hasTransformAndRenderable = 1025 :=
    countP_replicate_of_pos hasTransformAndRenderable quadEntity 1025 rfl
  have hlt : instanceBufferCapacity <
      overflowWorld.countP hasTransformAndRenderable := by
    rw [hc]
    decide
  exact ⟨hlt, (C6_no_silent_drop overflowWorld hlt).1⟩

/-- C7: resizing to strictly positive dimensions reconfigures the surface
and records the new size; a zero dimension makes resize a no-op, leaving
size, configuration and configure history unchanged. -/
theorem C7_resize_policy :
    (∀ (s : AppSurface) (w h : ℕ), 0 < w → 0 < h →
        resize s (w, h) = ⟨(w, h), (w, h), s.configureLog ++ [(w, h)]⟩) ∧
    (∀ (s : AppSurface) (w h : ℕ), w = 0 ∨ h = 0 → resize s (w, h) = s) := by
  constructor
  · intro s w h hw hh
    simp [resize, hw, hh]
  · rintro s w h (rfl | rfl) <;> simp [resize]

/-- C7 witness: resize to `(1024, 768)` records the new size; resize to
`(0, 600)` is a no-op. -/
theorem C7_resize_policy_witness :
    ((0:ℕ) < 1024 ∧ (0:ℕ) < 768 ∧
      resize sampleSurface (1024, 768) =
        ⟨(1024, 768), (1024, 768), sampleSurface.configureLog ++ [(1024, 768)]⟩) ∧
    (((0:ℕ) = 0 ∨ (600:ℕ) = 0) ∧ resize sampleSurface (0, 600) = sampleSurface) :=
  ⟨⟨by decide, by decide,
      C7_resize_policy.1 sampleSurface 1024 768 (by decide) (by decide)⟩,
    ⟨Or.inl rfl, C7_resize_policy.2 sampleSurface 0 600 (Or.inl rfl)⟩⟩

/-- C8: an empty instance sequence records no draw call at all; a
non-empty sequence records exactly one indexed draw call over all 6
indices and `len(instances)` instances. -/
theorem C8_draw_call_policy :
    (∀ instances : List DrawInstance, instances = [] →
        recordDrawCalls instances = []) ∧
    (∀ instances : List DrawInstance, instances ≠ [] →
        recordDrawCalls instances = [⟨0, numIndices, 0, 0, instances.length⟩]) := by
  constructor
  · rintro _ rfl
    rfl
  · intro instances h
    cases instances with
    | nil => exact absurd rfl h
    | cons a l => rfl

/-- C8 witness: the empty batch and a singleton batch. -/
theorem C8_draw_call_policy_witness :
    (([] : List DrawInstance) = [] ∧ recordDrawCalls [] = []) ∧
    ([mkDrawInstance sampleTransform ⟨1, 1, 1, 1⟩] ≠ [] ∧
      recordDrawCalls [mkDrawInstance sampleTransform ⟨1, 1, 1, 1⟩] =
        [⟨0, numIndices, 0, 0,
          [mkDrawInstance sampleTransform ⟨1, 1, 1, 1⟩].length⟩]) :=
  ⟨⟨rfl, C8_draw_call_policy.1 [] rfl⟩,
    ⟨by simp, C8_draw_call_policy.2 [mkDrawInstance sampleTransform ⟨1, 1, 1, 1⟩]
      (by simp)⟩⟩

/-- C9: the host redraw tick of `game_app/src/main.rs` never replaces the
`Time` resource's delta — starting from the initial world, the delta
observed by the movement system stays `0` on every tick, not the
wall-clock gap; `Engine::update` would replace it, but the app never
calls it. -/
theorem C9_host_loop_never_advances_clock :
    (∀ (p : Pressed) (w : AppWorld), (hostRedrawTick p w).time = w.time) ∧
    (∀ snapshots : List Pressed,
        (hostRedrawTicks snapshots initialAppWorld).time.deltaSeconds = 0) ∧
    (∀ (wallDelta : ℝ) (p : Pressed) (w : AppWorld),
        (engineUpdate wallDelta p w).time.deltaSeconds = wallDelta) := by
  refine ⟨fun p w => rfl, fun snapshots => ?_, fun wallDelta p w => rfl⟩
  rw [hostRedrawTicks_time]
  rfl

/-- C10: a movement pass can mutate only the `position` field of a
`Transform`: the `scale` and `rotation` fields, and every other component
of every entity, are preserved. -/
theorem C10_movement_mutates_only_position :
    ∀ (p : Pressed) (s dt : ℝ) (t : Transform) (e : Entity),
      (playerMovementStep p s dt t).scale = t.scale ∧
      (playerMovementStep p s dt t).rotation = t.rotation ∧
      ((moveEntity p dt e).transform).map Transform.scale =
        (e.transform).map Transform.scale ∧
      ((moveEntity p dt e).transform).map Transform.rotation =
        (e.transform).map Transform.rotation ∧
      (moveEntity p dt e).renderable = e.renderable ∧
      (moveEntity p dt e).player = e.player ∧
      (moveEntity p dt e).moveSpeed = e.moveSpeed := by
  intro p s dt t e
  have hstep : ∀ (sp : ℝ) (tr : Transform),
      (playerMovementStep p sp dt tr).scale = tr.scale ∧
      (playerMovementStep p sp dt tr).rotation = tr.rotation := by
    intro sp tr
    unfold playerMovementStep
    split
    · exact ⟨rfl, rfl⟩
    · exact ⟨rfl, rfl⟩
  refine ⟨(hstep s t).1, (hstep s t).2, ?_, ?_, ?_, ?_, ?_⟩ <;>
    · unfold moveEntity
      split
      · simp_all [hstep]
      · rfl

end WgpuEngine
